import Mathlib

/-!
Verification development for the MIME decoding core of an email parser
(Go package smtpsrv). Go strings are modelled as their byte sequences
(`GoStr`), Go panics and errors as an explicit outcome type (`Res`),
and platform primitives (charmap codecs, the RFC2047 word decoder, the
RFC5322 address and date grammars, media-type parsing) as function
parameters, so every theorem quantifies over them. All definitions are
translated from the source except where a doc comment says otherwise.
-/

/-- A Go string, modelled as its byte sequence. -/
abbrev GoStr := List Nat

/-- UTF-8 encoding of a single Unicode code point. -/
def cpUtf8 (n : Nat) : List Nat :=
  if n < 0x80 then [n]
  else if n < 0x800 then [0xC0 + n / 64, 0x80 + n % 64]
  else if n < 0x10000 then [0xE0 + n / 4096, 0x80 + n / 64 % 64, 0x80 + n % 64]
  else [0xF0 + n / 262144, 0x80 + n / 4096 % 64, 0x80 + n / 64 % 64, 0x80 + n % 64]

/-- Byte sequence of a Lean string literal (UTF-8), for writing `GoStr` constants. -/
def gs (s : String) : GoStr := (s.data.map (fun c => cpUtf8 c.toNat)).flatten

/-- ASCII lower-casing of one byte. -/
def asciiLower (b : Nat) : Nat := if 65 ≤ b ∧ b ≤ 90 then b + 32 else b

/-- Byte-wise ASCII model of Go strings.ToLower (adequate for the ASCII markers compared here). -/
def goToLower (s : GoStr) : GoStr := s.map asciiLower

/-- Go strings.TrimSuffix. -/
def goTrimSuffix (s suf : GoStr) : GoStr :=
  if suf.isSuffixOf s then s.take (s.length - suf.length) else s

/-- Go strings.Trim: remove from both ends every byte belonging to the cutset. -/
def goTrim (s : GoStr) (cutset : List Nat) : GoStr :=
  ((s.dropWhile (fun b => cutset.contains b)).reverse.dropWhile (fun b => cutset.contains b)).reverse

/-- Go strings.TrimSpace (ASCII whitespace model). -/
def goTrimSpace (s : GoStr) : GoStr := goTrim s [32, 9, 10, 13, 11, 12]

/-- Go strings.Contains. -/
def goContains (s sub : GoStr) : Bool :=
  match s with
  | [] => sub.isPrefixOf []
  | b :: rest => sub.isPrefixOf (b :: rest) || goContains rest sub

/-- Fuel-driven worker for `goSplitOn`; the fuel only bounds recursion depth and
`goSplitOn` always supplies enough of it. -/
def goSplitAux (sep : GoStr) : Nat → GoStr → List GoStr
  | 0, s => [s]
  | _ + 1, [] => [[]]
  | fuel + 1, b :: rest =>
    if sep ≠ [] ∧ sep.isPrefixOf (b :: rest) then
      [] :: goSplitAux sep fuel ((b :: rest).drop sep.length)
    else
      match goSplitAux sep fuel rest with
      | [] => [[b]]
      | t :: ts => (b :: t) :: ts

/-- Go strings.Split on a non-empty separator. -/
def goSplitOn (sep s : GoStr) : List GoStr := goSplitAux sep (s.length + 1) s

/-- Go strings.Join. -/
def goJoin (sep : GoStr) : List GoStr → GoStr
  | [] => []
  | [x] => x
  | x :: xs => x ++ sep ++ goJoin sep xs

/-- The header field parse failures recorded in the headerParser error slot. -/
inductive HeaderErr where
  | malformedAddress
  | malformedDate
deriving DecidableEq

/-- Every error the decoding core can report. -/
inductive PErr where
  | invalidContentType (raw : GoStr)
  | unknownEncoding (enc : GoStr)
  | decodeFailed
  | headerErr (e : HeaderErr)
  | unsupportedRelated (mediaType : String)
  | unsupportedAlternative (mediaType : String)
  | unsupportedMixed (mediaType : String)
deriving DecidableEq

/-- Outcome of running a piece of the Go code: a value, a returned error, or a panic. -/
inductive Res (α : Type) where
  | ok (a : α)
  | fail (e : PErr)
  | crash (msg : String)
deriving DecidableEq

/-- Sequencing of outcomes: errors and panics propagate. -/
def Res.bind {α β : Type} : Res α → (α → Res β) → Res β
  | .ok a, f => f a
  | .fail e, _ => .fail e
  | .crash m, _ => .crash m

/-- Mapping over a successful outcome. -/
def Res.map {α β : Type} (f : α → β) : Res α → Res β
  | .ok a => .ok (f a)
  | .fail e => .fail e
  | .crash m => .crash m

/-- Go slice expression s[lo:hi]: panics when the bounds are out of range. -/
def goSlice (s : GoStr) (lo hi : Nat) : Res GoStr :=
  if lo ≤ hi ∧ hi ≤ s.length then .ok ((s.take hi).drop lo) else .crash "slice bounds out of range"

/-- Value of one standard-alphabet base64 digit. -/
def b64Val (b : Nat) : Option Nat :=
  if 65 ≤ b ∧ b ≤ 90 then some (b - 65)
  else if 97 ≤ b ∧ b ≤ 122 then some (b - 71)
  else if 48 ≤ b ∧ b ≤ 57 then some (b + 4)
  else if b = 43 then some 62
  else if b = 47 then some 63
  else none

/-- Decode a base64 stream four digits at a time (standard alphabet, strict padding). -/
def b64Groups : List Nat → Option (List Nat)
  | [] => some []
  | a :: b :: c :: d :: rest =>
    match b64Val a, b64Val b with
    | some va, some vb =>
      if c = 61 then
        if d = 61 ∧ rest = [] then some [va * 4 + vb / 16] else none
      else
        match b64Val c with
        | some vc =>
          if d = 61 then
            if rest = [] then some [va * 4 + vb / 16, vb % 16 * 16 + vc / 4] else none
          else
            match b64Val d with
            | some vd =>
              match b64Groups rest with
              | some tail => some ((va * 4 + vb / 16) :: (vb % 16 * 16 + vc / 4) :: (vc % 4 * 64 + vd) :: tail)
              | none => none
            | none => none
        | none => none
    | _, _ => none
  | _ => none

/-- Model of the platform base64 decoder (standard encoding; CR and LF are skipped,
anything else outside the alphabet or mis-padded is an error). -/
def base64Decode (s : GoStr) : Option GoStr :=
  b64Groups (s.filter (fun b => !(b == 10) && !(b == 13)))

/-- Value of a hexadecimal digit byte. -/
def hexVal (b : Nat) : Option Nat :=
  if 48 ≤ b ∧ b ≤ 57 then some (b - 48)
  else if 65 ≤ b ∧ b ≤ 70 then some (b - 55)
  else if 97 ≤ b ∧ b ≤ 102 then some (b - 87)
  else none

/-- Model of the platform quoted-printable decoder: =XX escapes, soft line breaks,
and a lenient trailing = at end of input. -/
def qpDecode : GoStr → Option GoStr
  | [] => some []
  | 61 :: rest =>
    match rest with
    | [] => some []
    | 13 :: 10 :: rest2 => qpDecode rest2
    | 10 :: rest2 => qpDecode rest2
    | a :: b :: rest2 =>
      match hexVal a, hexVal b with
      | some hi, some lo =>
        match qpDecode rest2 with
        | some t => some ((hi * 16 + lo) :: t)
        | none => none
      | _, _ => none
    | _ => none
  | b :: rest =>
    match qpDecode rest with
    | some t => some (b :: t)
    | none => none

/-- The four platform single-byte charmap codecs the source selects from
(x/text charmap decoders), abstracted as total byte-to-code-point mappings;
theorems about charset handling quantify over them. -/
structure Charmaps where
  win1252 : Nat → Nat
  latin1 : Nat → Nat
  koi8r : Nat → Nat
  win1251 : Nat → Nat

/-- Transcode a byte sequence to UTF-8 through a single-byte codec; total by
construction, mirroring that the platform charmap decoders never fail. -/
def transcode (m : Nat → Nat) (bs : GoStr) : GoStr := (bs.map (fun b => cpUtf8 (m b))).flatten

/-- decodeCharset from the source: extract the charset after the literal
"; charset=" separator, lower-case and trim it, and transcode through one of
the four supported codecs, otherwise return the bytes unchanged. -/
def decodeCharset (cm : Charmaps) (content ctWithCharset : GoStr) : GoStr :=
  let charset :=
    if goContains ctWithCharset (gs "; charset=") then
      goToLower (goTrim ((goSplitOn (gs "; charset=") ctWithCharset).getD 1 []) [32, 34, 39, 10, 13])
    else gs "default"
  if charset = gs "default" then content
  else if charset = gs "windows-1252" then transcode cm.win1252 content
  else if charset = gs "iso-8859-1" then transcode cm.latin1 content
  else if charset = gs "koi8-r" then transcode cm.koi8r content
  else if charset = gs "windows-1251" then transcode cm.win1251 content
  else content

/-- Case-insensitive equality of byte strings (ASCII folding). -/
def eqFold (a b : GoStr) : Bool := goToLower a == goToLower b

/-- The Charset Transcoder as the spec words it: if the content-type string
contains the literal separator "; charset=" and the extracted, trimmed name
case-insensitively matches one of the four supported charsets, transcode by
that codec; for any other or absent charset return the bytes unchanged.
Written from the spec to be compared against `decodeCharset`. -/
def decodeCharsetSpec (cm : Charmaps) (content ctWithCharset : GoStr) : GoStr :=
  if goContains ctWithCharset (gs "; charset=") then
    let nm := goTrim ((goSplitOn (gs "; charset=") ctWithCharset).getD 1 []) [32, 34, 39, 10, 13]
    if eqFold nm (gs "windows-1252") then transcode cm.win1252 content
    else if eqFold nm (gs "iso-8859-1") then transcode cm.latin1 content
    else if eqFold nm (gs "koi8-r") then transcode cm.koi8r content
    else if eqFold nm (gs "windows-1251") then transcode cm.win1251 content
    else content
  else content

/-- decodeContent from the source. Returns the bytes a full read of the returned
reader yields, paired with the bytes still unread in the underlying part when
decodeContent returns: base64/quoted-printable/7bit/8bit consume the part
eagerly (remainder empty), while the empty encoding only wraps the part without
reading it, so the whole body is still unread. -/
def decodeContent (cm : Charmaps) (content encoding ctWithCharset : GoStr) : Res (GoStr × GoStr) :=
  if goToLower encoding = gs "base64" then
    match base64Decode content with
    | some b => .ok (decodeCharset cm b ctWithCharset, [])
    | none => .fail .decodeFailed
  else if goToLower encoding = gs "7bit" ∨ goToLower encoding = gs "8bit" then
    .ok (decodeCharset cm content ctWithCharset, [])
  else if goToLower encoding = gs "quoted-printable" then
    match qpDecode content with
    | some b => .ok (decodeCharset cm b ctWithCharset, [])
    | none => .fail .decodeFailed
  else if goToLower encoding = [] then
    .ok (decodeCharset cm content ctWithCharset, content)
  else .fail (.unknownEncoding encoding)

/-- decodeKoi8 from the source, including its Go slice expressions: the prefix
test only checks the 8-byte marker while the slices s[0:11] and s[11:len(s)-2]
require at least 13 bytes, so short inputs panic. -/
def decodeKoi8 (cm : Charmaps) (s : GoStr) : Res (Bool × GoStr) :=
  if (gs "=?koi8-r").isPrefixOf (goToLower s) then
    Res.bind (goSlice s 0 11) (fun pre =>
      let prefixL := goToLower pre
      Res.bind (goSlice s 11 (s.length - 2)) (fun origin =>
        if prefixL.getD 9 0 = 98 then
          match base64Decode origin with
          | some dec => .ok (true, transcode cm.koi8r dec)
          | none => .ok (false, [])
        else if prefixL.getD 9 0 = 113 then
          match qpDecode origin with
          | some dec => .ok (true, transcode cm.koi8r dec)
          | none => .ok (false, [])
        else .ok (false, [])))
  else .ok (false, [])

/-- Loop body of decodeMimeSentence's general path: decode each token with the
platform RFC2047 word decoder `wd`; a failing token passes through literally,
with one space prepended unless the result list is still empty. -/
def mimeWordsLoop (wd : GoStr → Option GoStr) (result : List GoStr) : List GoStr → List GoStr
  | [] => result
  | w :: rest =>
    let w2 :=
      match wd w with
      | some d => d
      | none => if result = [] then w else 32 :: w
    mimeWordsLoop wd (result ++ [w2]) rest

/-- decodeMimeSentence from the source: the KOI8-R whole-value fast path, then
the per-token general path joined with the empty separator. -/
def decodeMimeSentence (wd : GoStr → Option GoStr) (cm : Charmaps) (s : GoStr) : Res GoStr :=
  Res.bind (decodeKoi8 cm s) (fun p =>
    if p.1 then .ok p.2
    else .ok (mimeWordsLoop wd [] (goSplitOn (gs " ") s)).flatten)

/-- The general path of decodeMimeSentence as the spec words it: the first
token contributes its decoding or, failing that, itself; every later token
contributes its decoding or, failing that, itself preceded by one space.
Written from the spec to be compared against `decodeMimeSentence`. -/
def mimeSentenceSpec (wd : GoStr → Option GoStr) : List GoStr → GoStr
  | [] => []
  | t :: ts => ((wd t).getD t) ++ (ts.map (fun w => (wd w).getD (32 :: w))).flatten

/-- Modelled platform RFC2047 word decoder restricted to UTF-8/B encoded words
(the stdlib decoder also handles other charsets); a concrete instance used to
instantiate theorems that quantify over the word decoder. -/
def utf8BWordDecode (w : GoStr) : Option GoStr :=
  if (gs "=?utf-8?b?").isPrefixOf (goToLower w) ∧ (gs "?=").isSuffixOf w ∧ 12 ≤ w.length then
    base64Decode ((w.drop 10).take (w.length - 12))
  else none

/-- A parsed RFC5322 address (mail.Address). -/
structure Addr where
  name : GoStr := []
  address : GoStr := []
deriving DecidableEq

/-- A Go time.Time value, kept abstract as the byte string its parser produced;
the zero time is the empty string. -/
abbrev GoTime := GoStr

/-- The headerParser: a struct holding the shared error slot. In the source all
its methods take the receiver BY VALUE, so each method returns the updated copy
here and the caller decides (faithfully to Go) what happens to it. -/
structure HeaderParser where
  err : Option HeaderErr := none
deriving DecidableEq

/-- headerParser.parseAddress: short-circuit on an already-set error slot; an
empty or whitespace value is no error; delegate to the platform address
grammar `ap`, recording a failure in the (copied) receiver. -/
def HeaderParser.parseAddress (hp : HeaderParser) (ap : GoStr → Option Addr) (s : GoStr) :
    Option Addr × HeaderParser :=
  if hp.err.isSome then (none, hp)
  else if goTrim s [32, 10] ≠ [] then
    match ap s with
    | some a => (some a, hp)
    | none => (none, { hp with err := some .malformedAddress })
  else (none, hp)

/-- headerParser.parseAddressList, as `parseAddress` but for address lists. -/
def HeaderParser.parseAddressList (hp : HeaderParser) (alp : GoStr → Option (List Addr)) (s : GoStr) :
    List Addr × HeaderParser :=
  if hp.err.isSome then ([], hp)
  else if goTrim s [32, 10] ≠ [] then
    match alp s with
    | some l => (l, hp)
    | none => ([], { hp with err := some .malformedAddress })
  else ([], hp)

/-- The four fixed date layouts tried in order by headerParser.parseTime. -/
def timeFormats : List GoStr :=
  [gs "Mon, 02 Jan 2006 15:04:05 -0700",
   gs "Mon, 2 Jan 2006 15:04:05 -0700",
   gs "Mon, 02 Jan 2006 15:04:05 -0700 (MST)",
   gs "Mon, 2 Jan 2006 15:04:05 -0700 (MST)"]

/-- The format loop of parseTime: `tp` is the platform time.Parse; on success
return that time with a cleared error, otherwise carry the zero time and a
date error into the next attempt, returning the last attempt's pair. -/
def tryFormatsLoop (tp : GoStr → GoStr → Option GoTime) (s : GoStr)
    (cur : GoTime × Option HeaderErr) : List GoStr → GoTime × Option HeaderErr
  | [] => cur
  | f :: rest =>
    match tp f s with
    | some t => (t, none)
    | none => tryFormatsLoop tp s ([], some .malformedDate) rest

/-- headerParser.parseTime: an already-set slot or an empty value returns the
zero time with the slot untouched; otherwise the four formats are tried in
order and the copied receiver carries the outcome. -/
def HeaderParser.parseTime (hp : HeaderParser) (tp : GoStr → GoStr → Option GoTime) (s : GoStr) :
    GoTime × HeaderParser :=
  if hp.err.isSome ∨ s = [] then ([], hp)
  else
    let r := tryFormatsLoop tp s ([], hp.err) timeFormats
    (r.1, { hp with err := r.2 })

/-- headerParser.parseMessageId: trim angle brackets and spaces (reads the
error slot, never writes it). -/
def HeaderParser.parseMessageId (hp : HeaderParser) (s : GoStr) : GoStr :=
  if hp.err.isSome then [] else goTrim s [60, 62, 32]

/-- headerParser.parseMessageIdList: split on spaces, drop blank tokens, trim
each survivor like a message id. -/
def HeaderParser.parseMessageIdList (hp : HeaderParser) (s : GoStr) : List GoStr :=
  if hp.err.isSome then []
  else ((goSplitOn (gs " ") s).filter (fun p => goTrim p [32, 10] != [])).map
    (fun p => HeaderParser.parseMessageId hp p)

/-- A mail.Header, modelled as an association list of field name and value. -/
abbrev HeaderMap := List (String × GoStr)

/-- mail.Header.Get: first value for the field, or empty. -/
def hGet (h : HeaderMap) (k : String) : GoStr :=
  match h.find? (fun p => p.1 == k) with
  | some p => p.2
  | none => []

/-- decodeHeaderMime from the source: decode every header value through
decodeMimeSentence (the source always returns a nil error here). -/
def decodeHeaderMime (wd : GoStr → Option GoStr) (cm : Charmaps) : HeaderMap → Res HeaderMap
  | [] => .ok []
  | (k, v) :: rest =>
    Res.bind (decodeMimeSentence wd cm v) (fun v2 =>
      Res.bind (decodeHeaderMime wd cm rest) (fun rest2 =>
        .ok ((k, v2) :: rest2)))

/-- An attachment: decoded filename, parameter-stripped content type, payload bytes. -/
structure Attachment where
  Filename : GoStr := []
  ContentType : GoStr := []
  Data : GoStr := []
deriving DecidableEq

/-- An embedded file: trimmed content id, full declared content type, payload bytes. -/
structure EmbeddedFile where
  CID : GoStr := []
  ContentType : GoStr := []
  Data : GoStr := []
deriving DecidableEq

/-- The Email parse result. -/
structure Email where
  Header : HeaderMap := []
  Subject : GoStr := []
  Sender : Option Addr := none
  From : List Addr := []
  ReplyTo : List Addr := []
  To : List Addr := []
  Cc : List Addr := []
  Bcc : List Addr := []
  Date : GoTime := []
  MessageID : GoStr := []
  InReplyTo : List GoStr := []
  References : List GoStr := []
  ResentFrom : List Addr := []
  ResentSender : Option Addr := none
  ResentTo : List Addr := []
  ResentDate : GoTime := []
  ResentCc : List Addr := []
  ResentBcc : List Addr := []
  ResentMessageID : GoStr := []
  ContentType : GoStr := []
  Content : Option GoStr := none
  HTMLBody : GoStr := []
  TextBody : GoStr := []
  Attachments : List Attachment := []
  EmbeddedFiles : List EmbeddedFile := []
deriving DecidableEq

/-- createEmailFromHeader from the source. `ap`, `alp` and `tp` are the
platform address and date grammars. Every headerParser method is called on a
COPY of `hp` (Go value receivers), so, exactly as in the source, the updated
receiver each method returns is discarded and the shared error slot the final
check reads is still the initial one. -/
def createEmailFromHeader (ap : GoStr → Option Addr) (alp : GoStr → Option (List Addr))
    (tp : GoStr → GoStr → Option GoTime) (wd : GoStr → Option GoStr) (cm : Charmaps)
    (h : HeaderMap) : Res Email :=
  let hp : HeaderParser := {}
  Res.bind (decodeMimeSentence wd cm (hGet h "Subject")) (fun subject =>
    let fromL := (HeaderParser.parseAddressList hp alp (hGet h "From")).1
    let senderA := (HeaderParser.parseAddress hp ap (hGet h "Sender")).1
    let replyToL := (HeaderParser.parseAddressList hp alp (hGet h "Reply-To")).1
    let toL := (HeaderParser.parseAddressList hp alp (hGet h "To")).1
    let ccL := (HeaderParser.parseAddressList hp alp (hGet h "Cc")).1
    let bccL := (HeaderParser.parseAddressList hp alp (hGet h "Bcc")).1
    let dateT := (HeaderParser.parseTime hp tp (hGet h "Date")).1
    let resentFromL := (HeaderParser.parseAddressList hp alp (hGet h "Resent-From")).1
    let resentSenderA := (HeaderParser.parseAddress hp ap (hGet h "Resent-Sender")).1
    let resentToL := (HeaderParser.parseAddressList hp alp (hGet h "Resent-To")).1
    let resentCcL := (HeaderParser.parseAddressList hp alp (hGet h "Resent-Cc")).1
    let resentBccL := (HeaderParser.parseAddressList hp alp (hGet h "Resent-Bcc")).1
    let resentMessageID := HeaderParser.parseMessageId hp (hGet h "Resent-Message-ID")
    let messageID := HeaderParser.parseMessageId hp (hGet h "Message-ID")
    let inReplyToL := HeaderParser.parseMessageIdList hp (hGet h "In-Reply-To")
    let referencesL := HeaderParser.parseMessageIdList hp (hGet h "References")
    let resentDateT := (HeaderParser.parseTime hp tp (hGet h "Resent-Date")).1
    match hp.err with
    | some e => .fail (.headerErr e)
    | none =>
      Res.bind (decodeHeaderMime wd cm h) (fun hdr =>
        .ok { Header := hdr, Subject := subject, Sender := senderA, From := fromL,
              ReplyTo := replyToL, To := toL, Cc := ccL, Bcc := bccL, Date := dateT,
              ResentFrom := resentFromL, ResentSender := resentSenderA,
              ResentTo := resentToL, ResentCc := resentCcL, ResentBcc := resentBccL,
              ResentMessageID := resentMessageID, MessageID := messageID,
              InReplyTo := inReplyToL, References := referencesL, ResentDate := resentDateT }))

mutual
/-- A MIME part as the platform boundary splitter delivers it: the media type
already resolved by the platform media-type parser, the raw Content-Type header
value, the Content-Transfer-Encoding value, the filename the platform derives
from Content-Disposition or the name parameter, the Content-Id value, and the
part body. -/
inductive MimePart where
  | mk : (mediaType : String) → (rawCT : GoStr) → (cte : GoStr) → (fileName : GoStr) →
      (cid : GoStr) → (body : MimeBody) → MimePart
/-- A part body: leaf bytes, or the sub-parts the boundary splitter yields when
the body is itself parsed as a multipart stream. -/
inductive MimeBody where
  | leaf : GoStr → MimeBody
  | multi : MimeParts → MimeBody
/-- A sequence of sibling parts. -/
inductive MimeParts where
  | nil : MimeParts
  | cons : MimePart → MimeParts → MimeParts
end

/-- The resolved media type of a part. -/
def MimePart.mediaType : MimePart → String
  | .mk mt _ _ _ _ _ => mt

/-- The raw Content-Type header value of a part. -/
def MimePart.rawCT : MimePart → GoStr
  | .mk _ raw _ _ _ _ => raw

/-- The Content-Transfer-Encoding header value of a part. -/
def MimePart.cte : MimePart → GoStr
  | .mk _ _ cte _ _ _ => cte

/-- The filename of a part (multipart.MimePart.FileName). -/
def MimePart.fileName : MimePart → GoStr
  | .mk _ _ _ fn _ _ => fn

/-- The Content-Id header value of a part. -/
def MimePart.cid : MimePart → GoStr
  | .mk _ _ _ _ cid _ => cid

/-- The body of a part. -/
def MimePart.body : MimePart → MimeBody
  | .mk _ _ _ _ _ b => b

/-- The bytes a raw read of the part body yields; reading a body that is
represented as sub-parts is not exercised by any theorem here. -/
def MimeBody.leafData : MimeBody → GoStr
  | .leaf d => d
  | .multi _ => []

/-- The sub-parts the boundary splitter yields for this body. -/
def MimeBody.subparts : MimeBody → MimeParts
  | .leaf _ => .nil
  | .multi ps => ps

/-- Length of a part sequence. -/
def MimeParts.len : MimeParts → Nat
  | .nil => 0
  | .cons _ rest => rest.len + 1

/-- isEmbeddedFile from the source: the part declares a non-empty
Content-Transfer-Encoding. -/
def isEmbeddedFile (p : MimePart) : Bool := !(p.cte == [])

/-- isAttachment from the source: the part declares a filename or its resolved
media type is exactly application/octet-stream. -/
def isAttachment (p : MimePart) (contentType : String) : Bool :=
  !(p.fileName == []) || contentType == "application/octet-stream"

/-- decodeEmbeddedFile from the source: decoded and angle-trimmed Content-Id,
transfer+charset decoded payload, raw declared content type. -/
def decodeEmbeddedFile (cm : Charmaps) (wd : GoStr → Option GoStr) (p : MimePart) : Res EmbeddedFile :=
  Res.bind (decodeMimeSentence wd cm p.cid) (fun cid =>
    Res.bind (decodeContent cm p.body.leafData p.cte p.rawCT) (fun d =>
      .ok { CID := goTrim cid [60, 62], ContentType := p.rawCT, Data := d.1 }))

/-- decodeAttachment from the source. The Filename fallback uses a clock
reading in Go; the synthesized name is passed in as `fallbackName`. After the
transfer decoding consumed the part, the octet-stream carve-out re-reads the
part, so Data becomes the bytes still unread at that moment (the second
component decodeContent returns). -/
def decodeAttachment (cm : Charmaps) (wd : GoStr → Option GoStr) (fallbackName : GoStr)
    (p : MimePart) : Res Attachment :=
  Res.bind (decodeMimeSentence wd cm p.fileName) (fun fn =>
    let filename := if fn = [] then fallbackName else fn
    Res.bind (decodeContent cm p.body.leafData p.cte p.rawCT) (fun d =>
      let ct := (goSplitOn (gs ";") p.rawCT).headD []
      let data := if ct = gs "application/octet-stream" then d.2 else d.1
      .ok { Filename := filename, ContentType := ct, Data := data }))

mutual
/-- The loop of parseMultipartRelated from the source, with the accumulators as
arguments: text/plain and text/html leaves are read RAW (no decodeContent) and
appended with one trailing newline trimmed; a nested multipart/alternative is
recursed into and its results merged by concatenation and append; any other
part must be an embedded file, else the parse fails. A nested part whose body
the splitter cannot read as multipart yields no sub-parts. -/
def relatedLoop (cm : Charmaps) (wd : GoStr → Option GoStr) (textBody htmlBody : GoStr)
    (embeddedFiles : List EmbeddedFile) : MimeParts → Res (GoStr × GoStr × List EmbeddedFile)
  | .nil => .ok (textBody, htmlBody, embeddedFiles)
  | .cons (.mk mediaType rawCT cte fn cid pbody) rest =>
    if mediaType = "text/plain" then
      relatedLoop cm wd (textBody ++ goTrimSuffix pbody.leafData (gs "\n")) htmlBody embeddedFiles rest
    else if mediaType = "text/html" then
      relatedLoop cm wd textBody (htmlBody ++ goTrimSuffix pbody.leafData (gs "\n")) embeddedFiles rest
    else if mediaType = "multipart/alternative" then
      match pbody with
      | .multi ps =>
        match alternativeLoop cm wd [] [] [] ps with
        | .ok r => relatedLoop cm wd (textBody ++ r.1) (htmlBody ++ r.2.1) (embeddedFiles ++ r.2.2) rest
        | .fail e => .fail e
        | .crash m => .crash m
      | .leaf _ => relatedLoop cm wd textBody htmlBody embeddedFiles rest
    else if isEmbeddedFile (.mk mediaType rawCT cte fn cid pbody) then
      match decodeEmbeddedFile cm wd (.mk mediaType rawCT cte fn cid pbody) with
      | .ok ef => relatedLoop cm wd textBody htmlBody (embeddedFiles ++ [ef]) rest
      | .fail e => .fail e
      | .crash m => .crash m
    else .fail (.unsupportedRelated mediaType)

/-- The loop of parseMultipartAlternative from the source: unlike the Related
handler, text/plain and text/html leaves go through decodeContent
(transfer-encoding and charset decoding) before being appended; a nested
multipart/related is recursed into and merged; any other part must be an
embedded file, else the parse fails. -/
def alternativeLoop (cm : Charmaps) (wd : GoStr → Option GoStr) (textBody htmlBody : GoStr)
    (embeddedFiles : List EmbeddedFile) : MimeParts → Res (GoStr × GoStr × List EmbeddedFile)
  | .nil => .ok (textBody, htmlBody, embeddedFiles)
  | .cons (.mk mediaType rawCT cte fn cid pbody) rest =>
    if mediaType = "text/plain" then
      match decodeContent cm pbody.leafData cte rawCT with
      | .ok d => alternativeLoop cm wd (textBody ++ goTrimSuffix d.1 (gs "\n")) htmlBody embeddedFiles rest
      | .fail e => .fail e
      | .crash m => .crash m
    else if mediaType = "text/html" then
      match decodeContent cm pbody.leafData cte rawCT with
      | .ok d => alternativeLoop cm wd textBody (htmlBody ++ goTrimSuffix d.1 (gs "\n")) embeddedFiles rest
      | .fail e => .fail e
      | .crash m => .crash m
    else if mediaType = "multipart/related" then
      match pbody with
      | .multi ps =>
        match relatedLoop cm wd [] [] [] ps with
        | .ok r => alternativeLoop cm wd (textBody ++ r.1) (htmlBody ++ r.2.1) (embeddedFiles ++ r.2.2) rest
        | .fail e => .fail e
        | .crash m => .crash m
      | .leaf _ => alternativeLoop cm wd textBody htmlBody embeddedFiles rest
    else if isEmbeddedFile (.mk mediaType rawCT cte fn cid pbody) then
      match decodeEmbeddedFile cm wd (.mk mediaType rawCT cte fn cid pbody) with
      | .ok ef => alternativeLoop cm wd textBody htmlBody (embeddedFiles ++ [ef]) rest
      | .fail e => .fail e
      | .crash m => .crash m
    else .fail (.unsupportedAlternative mediaType)
end

/-- parseMultipartRelated from the source (accumulators start empty). -/
def parseMultipartRelated (cm : Charmaps) (wd : GoStr → Option GoStr) (ps : MimeParts) :
    Res (GoStr × GoStr × List EmbeddedFile) :=
  relatedLoop cm wd [] [] [] ps

/-- parseMultipartAlternative from the source (accumulators start empty). -/
def parseMultipartAlternative (cm : Charmaps) (wd : GoStr → Option GoStr) (ps : MimeParts) :
    Res (GoStr × GoStr × List EmbeddedFile) :=
  alternativeLoop cm wd [] [] [] ps

/-- The loop of parseMultipartMixed from the source. Note the nested
multipart/alternative and multipart/related cases ASSIGN the nested handler's
results to textBody, htmlBody and embeddedFiles (a plain `=` in the source,
not `+=`/append), so earlier accumulator contents are replaced; only the
attachments accumulator survives. text/plain and text/html leaves are decoded
and appended; other parts must qualify as attachments, else the parse fails. -/
def mixedLoop (cm : Charmaps) (wd : GoStr → Option GoStr) (fallbackName : GoStr)
    (textBody htmlBody : GoStr) (attachments : List Attachment)
    (embeddedFiles : List EmbeddedFile) : MimeParts →
    Res (GoStr × GoStr × List Attachment × List EmbeddedFile)
  | .nil => .ok (textBody, htmlBody, attachments, embeddedFiles)
  | .cons (.mk mediaType rawCT cte fn cid pbody) rest =>
    if mediaType = "multipart/alternative" then
      match alternativeLoop cm wd [] [] [] pbody.subparts with
      | .ok r => mixedLoop cm wd fallbackName r.1 r.2.1 attachments r.2.2 rest
      | .fail e => .fail e
      | .crash m => .crash m
    else if mediaType = "multipart/related" then
      match relatedLoop cm wd [] [] [] pbody.subparts with
      | .ok r => mixedLoop cm wd fallbackName r.1 r.2.1 attachments r.2.2 rest
      | .fail e => .fail e
      | .crash m => .crash m
    else if mediaType = "text/plain" then
      match decodeContent cm pbody.leafData cte rawCT with
      | .ok d => mixedLoop cm wd fallbackName (textBody ++ goTrimSuffix d.1 (gs "\n")) htmlBody attachments embeddedFiles rest
      | .fail e => .fail e
      | .crash m => .crash m
    else if mediaType = "text/html" then
      match decodeContent cm pbody.leafData cte rawCT with
      | .ok d => mixedLoop cm wd fallbackName textBody (htmlBody ++ goTrimSuffix d.1 (gs "\n")) attachments embeddedFiles rest
      | .fail e => .fail e
      | .crash m => .crash m
    else if isAttachment (.mk mediaType rawCT cte fn cid pbody) mediaType then
      match decodeAttachment cm wd fallbackName (.mk mediaType rawCT cte fn cid pbody) with
      | .ok at2 => mixedLoop cm wd fallbackName textBody htmlBody (attachments ++ [at2]) embeddedFiles rest
      | .fail e => .fail e
      | .crash m => .crash m
    else .fail (.unsupportedMixed mediaType)

/-- parseMultipartMixed from the source (accumulators start empty). -/
def parseMultipartMixed (cm : Charmaps) (wd : GoStr → Option GoStr) (fallbackName : GoStr)
    (ps : MimeParts) : Res (GoStr × GoStr × List Attachment × List EmbeddedFile) :=
  mixedLoop cm wd fallbackName [] [] [] [] ps

/-- Worker for sanitizeContentTypeHeader: trim each parameter, drop empty ones,
and drop key=value parameters whose lower-cased key was already seen. -/
def sanitizeAux (seen : List GoStr) : List GoStr → List GoStr
  | [] => []
  | p :: rest =>
    let p2 := goTrimSpace p
    if p2 = [] then sanitizeAux seen rest
    else if goContains p2 (gs "=") then
      let key := goToLower ((goSplitOn (gs "=") p2).headD [])
      if seen.contains key then sanitizeAux seen rest
      else p2 :: sanitizeAux (key :: seen) rest
    else p2 :: sanitizeAux seen rest

/-- sanitizeContentTypeHeader from the source: deduplicate content-type
parameters by case-insensitive key, first occurrence winning. -/
def sanitizeContentTypeHeader (contentType : GoStr) : GoStr :=
  goJoin (gs "; ") (sanitizeAux [] (goSplitOn (gs ";") contentType))

/-- parseContentType from the source: an absent header defaults to text/plain;
otherwise the sanitized header goes through the platform media-type parser
`mto`, whose failure is an invalid-content-type error. -/
def parseContentTypeM (mto : GoStr → Option String) (raw : GoStr) : Res String :=
  if raw = [] then .ok "text/plain"
  else
    match mto (sanitizeContentTypeHeader raw) with
    | some mt => .ok mt
    | none => .fail (.invalidContentType raw)

/-- A whole message as the platform mail reader delivers it: header block plus
body. -/
structure Msg where
  header : HeaderMap
  body : MimeBody

/-- ParseEmail from the source: build the Email from the header, resolve the
top-level content type, and run exactly one of the six dispatch branches. -/
def ParseEmail (cm : Charmaps) (wd : GoStr → Option GoStr) (ap : GoStr → Option Addr)
    (alp : GoStr → Option (List Addr)) (tp : GoStr → GoStr → Option GoTime)
    (fallbackName : GoStr) (mto : GoStr → Option String) (m : Msg) : Res Email :=
  Res.bind (createEmailFromHeader ap alp tp wd cm m.header) (fun e0 =>
    let ctRaw := hGet m.header "Content-Type"
    let e1 := { e0 with ContentType := ctRaw }
    Res.bind (parseContentTypeM mto ctRaw) (fun mt =>
      if mt = "multipart/mixed" then
        Res.bind (parseMultipartMixed cm wd fallbackName m.body.subparts) (fun r =>
          .ok { e1 with TextBody := r.1, HTMLBody := r.2.1, Attachments := r.2.2.1,
                        EmbeddedFiles := r.2.2.2 })
      else if mt = "multipart/alternative" then
        Res.bind (parseMultipartAlternative cm wd m.body.subparts) (fun r =>
          .ok { e1 with TextBody := r.1, HTMLBody := r.2.1, EmbeddedFiles := r.2.2 })
      else if mt = "multipart/related" then
        Res.bind (parseMultipartRelated cm wd m.body.subparts) (fun r =>
          .ok { e1 with TextBody := r.1, HTMLBody := r.2.1, EmbeddedFiles := r.2.2 })
      else if mt = "text/plain" then
        Res.bind (decodeContent cm m.body.leafData (hGet m.header "Content-Transfer-Encoding") (hGet m.header "Content-Type")) (fun d =>
          .ok { e1 with TextBody := goTrimSuffix d.1 (gs "\n") })
      else if mt = "text/html" then
        Res.bind (decodeContent cm m.body.leafData (hGet m.header "Content-Transfer-Encoding") (hGet m.header "Content-Type")) (fun d =>
          .ok { e1 with HTMLBody := goTrimSuffix d.1 (gs "\n") })
      else
        Res.bind (decodeContent cm m.body.leafData (hGet m.header "Content-Transfer-Encoding") (hGet m.header "Content-Type")) (fun d =>
          .ok { e1 with Content := some d.1 })))

/-- All parts are text/plain or text/html leaves with no transfer encoding and
no charset selector in their raw content type: the condition under which the
Related and Alternative handlers coincide. -/
def plainTextLeaves : MimeParts → Bool
  | .nil => true
  | .cons (.mk mt raw cte _ _ (.leaf _)) rest =>
    (mt == "text/plain" || mt == "text/html") && (cte == []) &&
      !(goContains raw (gs "; charset=")) && plainTextLeaves rest
  | .cons _ _ => false

/-- A concrete charmap family (arbitrary total byte maps) used to instantiate
theorems that quantify over the codecs. -/
def cm₁ : Charmaps := { win1252 := fun b => b, latin1 := fun b => b, koi8r := fun b => b, win1251 := fun b => b }

/-- A concrete word decoder instance: the UTF-8/B model above. -/
def wd₁ : GoStr → Option GoStr := utf8BWordDecode

/-- A concrete platform address parser that accepts nothing. -/
def ap₁ : GoStr → Option Addr := fun _ => none

/-- A concrete platform address-list parser that accepts exactly one address. -/
def alp₁ : GoStr → Option (List Addr) := fun s =>
  if s = gs "good@example.com" then some [{ address := gs "good@example.com" }] else none

/-- A concrete platform time parser: one layout, one accepted date string. -/
def tp₁ : GoStr → GoStr → Option GoTime := fun f s =>
  if f = gs "Mon, 2 Jan 2006 15:04:05 -0700" ∧ s = gs "Wed, 1 Jan 2020 00:00:00 +0000" then
    some (gs "2020-01-01")
  else none

/-- A concrete synthesized fallback attachment name. -/
def fb₁ : GoStr := gs "attachment-1"

/-- A concrete platform media-type parser accepting one media type. -/
def mto₁ : GoStr → Option String := fun raw =>
  if raw = gs "application/pdf" then some "application/pdf" else none

/-- A header whose From value no address parser accepts and whose To value
`alp₁` accepts: the C1 failing input. -/
def hdr₁ : HeaderMap := [("From", gs "not an address"), ("To", gs "good@example.com")]

/-- A text/plain leaf part with body A. -/
def partA : MimePart := .mk "text/plain" (gs "text/plain") [] [] [] (.leaf (gs "A"))

/-- A text/plain leaf part with body B. -/
def partB : MimePart := .mk "text/plain" (gs "text/plain") [] [] [] (.leaf (gs "B"))

/-- A nested multipart/alternative part containing only `partB`. -/
def altPart₁ : MimePart :=
  .mk "multipart/alternative" (gs "multipart/alternative") [] [] [] (.multi (.cons partB .nil))

/-- A text/plain leaf whose body is base64-encoded ("aGk=" decodes to "hi"). -/
def partB64 : MimePart := .mk "text/plain" (gs "text/plain") (gs "base64") [] [] (.leaf (gs "aGk="))

/-- An application/octet-stream part with base64 transfer encoding: the C3
failing input (the transfer decoder drains the part before the carve-out
re-reads it). -/
def octPart₁ : MimePart :=
  .mk "application/octet-stream" (gs "application/octet-stream") (gs "base64") [] [] (.leaf (gs "aGk="))

/-- An application/octet-stream part with no transfer encoding: the carve-out
then really does capture the raw body bytes. -/
def octPart₂ : MimePart :=
  .mk "application/octet-stream" (gs "application/octet-stream") [] [] [] (.leaf (gs "RAW"))

/-- The C6 witness subject: four adjacent UTF-8/B encoded words and one
trailing literal word. -/
def subj₁ : GoStr := gs "=?UTF-8?B?YWJj?= =?UTF-8?B?ZGVm?= =?UTF-8?B?Z2hp?= =?UTF-8?B?amts?= online"

/-- A message whose top-level media type is application/pdf (no dispatch
branch matches, so the raw Content field is populated). -/
def msg₁ : Msg := { header := [("Content-Type", gs "application/pdf")], body := .leaf (gs "hello") }

/-- The Email that parsing `msg₁` produces. -/
def email₉ : Email :=
  { Header := [("Content-Type", gs "application/pdf")], ContentType := gs "application/pdf",
    Content := some (gs "hello") }

/-- Claim C1 (refuted, code bug): the headerParser methods take their receiver
by value, so the shared error slot is never updated in the caller. On a header
whose From value fails address parsing, createEmailFromHeader nevertheless
succeeds, and the later To field is parsed normally instead of being left
empty — the fail-fast accumulator the claim describes never engages. -/
theorem c1_error_slot_never_propagates :
    alp₁ (hGet hdr₁ "From") = none ∧
    Res.map (fun e => (e.From, e.To)) (createEmailFromHeader ap₁ alp₁ tp₁ wd₁ cm₁ hdr₁) =
      .ok ([], [{ address := gs "good@example.com" }]) := by
  constructor
  · decide
  · decide

/-- Claim C4 (refuted, code bug): the KOI8-R fast path checks only the 8-byte
marker before slicing s[0:11], so the 8-byte input "=?koi8-r" panics with a
slice-bounds error instead of terminating normally and failing open. -/
theorem c4_koi8_fast_path_panics :
    decodeMimeSentence wd₁ cm₁ (gs "=?koi8-r") = .crash "slice bounds out of range" := by
  decide

/-- Claim C2 counterexample: a multipart/mixed body whose text/plain part "A"
precedes a nested multipart/alternative containing "B" yields TextBody "B",
not the concatenation "AB" the claim requires — the nested handler result
replaces, rather than merges into, the earlier accumulator contents. -/
theorem c2_counterexample :
    parseMultipartMixed cm₁ wd₁ fb₁ (.cons partA (.cons altPart₁ .nil)) = .ok (gs "B", [], [], []) ∧
    gs "B" ≠ gs "A" ++ gs "B" := by
  constructor
  · decide
  · decide

/-- Claim C3 counterexample: an application/octet-stream part with base64
transfer encoding and body "aGk=" delivers an attachment whose Data is EMPTY
(the part was already drained by the transfer decoder when the carve-out
re-reads it), not the raw bytes "aGk=" the claim requires. -/
theorem c3_counterexample :
    Res.map Attachment.Data (decodeAttachment cm₁ wd₁ fb₁ octPart₁) = .ok [] ∧
    ([] : GoStr) ≠ gs "aGk=" := by
  constructor
  · decide
  · decide

/-- Claim C5 counterexample: on a single base64-encoded text/plain leaf the
Related handler appends the still-encoded bytes "aGk=" while the Alternative
handler appends the decoded "hi" — the two handlers are not equivalent because
parseMultipartRelated skips transfer-encoding and charset decoding. -/
theorem c5_counterexample :
    parseMultipartRelated cm₁ wd₁ (.cons partB64 .nil) = .ok (gs "aGk=", [], []) ∧
    parseMultipartAlternative cm₁ wd₁ (.cons partB64 .nil) = .ok (gs "hi", [], []) ∧
    gs "aGk=" ≠ gs "hi" := by
  refine ⟨?_, ?_, ?_⟩
  · decide
  · decide
  · decide

/-- Claim C2 (amended): when parseMultipartMixed meets a nested
multipart/alternative or multipart/related part, the nested handler's text,
HTML and embedded-file results are ASSIGNED to the caller's accumulators,
replacing any earlier contributions; only the attachments accumulator is
carried through. -/
theorem c2_nested_results_replace_accumulators :
    (∀ (cm : Charmaps) (wd : GoStr → Option GoStr) (fb tb hb : GoStr)
       (atts : List Attachment) (efs : List EmbeddedFile) (raw cte fn cid : GoStr)
       (ps rest : MimeParts) (r : GoStr × GoStr × List EmbeddedFile),
      alternativeLoop cm wd [] [] [] ps = .ok r →
      mixedLoop cm wd fb tb hb atts efs
          (.cons (.mk "multipart/alternative" raw cte fn cid (.multi ps)) rest) =
        mixedLoop cm wd fb r.1 r.2.1 atts r.2.2 rest) ∧
    (∀ (cm : Charmaps) (wd : GoStr → Option GoStr) (fb tb hb : GoStr)
       (atts : List Attachment) (efs : List EmbeddedFile) (raw cte fn cid : GoStr)
       (ps rest : MimeParts) (r : GoStr × GoStr × List EmbeddedFile),
      relatedLoop cm wd [] [] [] ps = .ok r →
      mixedLoop cm wd fb tb hb atts efs
          (.cons (.mk "multipart/related" raw cte fn cid (.multi ps)) rest) =
        mixedLoop cm wd fb r.1 r.2.1 atts r.2.2 rest) := by
  constructor
  · intro cm wd fb tb hb atts efs raw cte fn cid ps rest r h
    simp only [mixedLoop, MimeBody.subparts, h]
    simp
  · intro cm wd fb tb hb atts efs raw cte fn cid ps rest r h
    simp only [mixedLoop, MimeBody.subparts, h]
    simp

/-- Witness for the amended C2: with earlier TextBody "A" accumulated, meeting
the nested alternative containing "B" leaves the loop continuing from "B"
alone. -/
theorem c2_witness :
    mixedLoop cm₁ wd₁ fb₁ (gs "A") [] [] [] (.cons altPart₁ .nil) =
      mixedLoop cm₁ wd₁ fb₁ (gs "B") [] [] [] .nil := by
  exact (c2_nested_results_replace_accumulators).1 cm₁ wd₁ fb₁ (gs "A") [] [] []
    (gs "multipart/alternative") [] [] [] (.cons partB .nil) .nil (gs "B", [], []) (by decide)

/-- With an empty Content-Transfer-Encoding, decodeContent only wraps the part:
the output is the charset-decoded body and the whole body is still unread. -/
lemma decodeContent_empty_encoding (cm : Charmaps) (body ct : GoStr) :
    decodeContent cm body [] ct = .ok (decodeCharset cm body ct, body) := by
  unfold decodeContent
  rw [if_neg (by decide), if_neg (by decide), if_neg (by decide), if_pos (by decide)]

/-- Claim C3 (amended): for a part whose Content-Type's first semicolon
segment is exactly application/octet-stream, the attachment's Data is forced
to the bytes still unread in the part after the transfer decoder ran: the raw
body when the encoding is empty/absent, but the EMPTY byte string for base64,
7bit, 8bit and quoted-printable, whose decoding already consumed the part. -/
theorem c3_octet_stream_data_is_remainder :
    ∀ (cm : Charmaps) (wd : GoStr → Option GoStr) (fb : GoStr) (mt : String)
      (raw cte fn cid body fn2 out rem : GoStr),
      (goSplitOn (gs ";") raw).headD [] = gs "application/octet-stream" →
      decodeMimeSentence wd cm fn = .ok fn2 →
      decodeContent cm body cte raw = .ok (out, rem) →
      Res.map Attachment.Data (decodeAttachment cm wd fb (.mk mt raw cte fn cid (.leaf body))) =
          .ok rem ∧
      (cte = [] → rem = body) ∧
      ((goToLower cte = gs "base64" ∨ goToLower cte = gs "7bit" ∨ goToLower cte = gs "8bit" ∨
        goToLower cte = gs "quoted-printable") → rem = []) := by
  intro cm wd fb mt raw cte fn cid body fn2 out rem h1 h2 h3
  refine ⟨?_, ?_, ?_⟩
  · simp only [decodeAttachment, MimePart.fileName, MimePart.cte, MimePart.rawCT, MimePart.body,
      MimeBody.leafData, MimePart.cid, h2, h3, Res.bind, h1, Res.map]
    simp
  · intro hcte
    subst hcte
    rw [decodeContent_empty_encoding] at h3
    injection h3 with h4
    exact (congrArg Prod.snd h4).symm
  · intro hdisj
    rcases hdisj with hb | hb | hb | hb
    · rw [decodeContent] at h3
      rw [if_pos hb] at h3
      cases hdec : base64Decode body with
      | some bs => rw [hdec] at h3; injection h3 with h4; exact (congrArg Prod.snd h4).symm
      | none => rw [hdec] at h3; cases h3
    · rw [decodeContent] at h3
      rw [if_neg (by rw [hb]; decide), if_pos (Or.inl hb)] at h3
      injection h3 with h4
      exact (congrArg Prod.snd h4).symm
    · rw [decodeContent] at h3
      rw [if_neg (by rw [hb]; decide), if_pos (Or.inr hb)] at h3
      injection h3 with h4
      exact (congrArg Prod.snd h4).symm
    · rw [decodeContent] at h3
      rw [if_neg (by rw [hb]; decide), if_neg (by rw [hb]; decide), if_pos hb] at h3
      cases hdec : qpDecode body with
      | some bs => rw [hdec] at h3; injection h3 with h4; exact (congrArg Prod.snd h4).symm
      | none => rw [hdec] at h3; cases h3

/-- Witness for the amended C3: an octet-stream part with no transfer encoding
and body "RAW" delivers exactly those raw bytes. -/
theorem c3_witness :
    Res.map Attachment.Data (decodeAttachment cm₁ wd₁ fb₁ octPart₂) = .ok (gs "RAW") := by
  exact (c3_octet_stream_data_is_remainder cm₁ wd₁ fb₁ "application/octet-stream"
    (gs "application/octet-stream") [] [] [] (gs "RAW") [] (gs "RAW") (gs "RAW")
    (by decide) (by decide) (by decide)).1

/-- A content type without the charset separator leaves the bytes unchanged. -/
lemma decodeCharset_no_sep (cm : Charmaps) (content ct : GoStr)
    (h : goContains ct (gs "; charset=") = false) : decodeCharset cm content ct = content := by
  simp [decodeCharset, h]

/-- Core of the amended C5: on bodies of text-plain/html leaves with empty
transfer encoding and no charset selector, the Related and Alternative loops
coincide for every accumulator state. -/
lemma walk_eq_of_plainTextLeaves (cm : Charmaps) (wd : GoStr → Option GoStr) :
    ∀ (n : Nat) (ps : MimeParts), ps.len ≤ n → plainTextLeaves ps = true →
      ∀ (tb hb : GoStr) (efs : List EmbeddedFile),
        relatedLoop cm wd tb hb efs ps = alternativeLoop cm wd tb hb efs ps := by
  intro n
  induction n with
  | zero =>
    intro ps hlen hpl tb hb efs
    cases ps with
    | nil => rfl
    | cons p rest => simp [MimeParts.len] at hlen
  | succ n ih =>
    intro ps hlen hpl tb hb efs
    cases ps with
    | nil => rfl
    | cons p rest =>
      cases p with
      | mk mt raw cte fn cid pbody =>
        cases pbody with
        | multi sub => simp [plainTextLeaves] at hpl
        | leaf d =>
          simp only [plainTextLeaves, Bool.and_eq_true, Bool.or_eq_true, beq_iff_eq,
            Bool.not_eq_true] at hpl
          obtain ⟨⟨⟨hmt, hcte⟩, hcs⟩, hrest⟩ := hpl
          have hcs2 : goContains raw (gs "; charset=") = false := by simpa using hcs
          have hlen2 : rest.len ≤ n := by
            simp only [MimeParts.len] at hlen
            omega
          have hdc : decodeContent cm d cte raw = .ok (d, d) := by
            subst hcte
            rw [decodeContent_empty_encoding, decodeCharset_no_sep cm d raw hcs2]
          rcases hmt with hmt | hmt
          · subst hmt
            simp only [relatedLoop, alternativeLoop, MimeBody.leafData, hdc, reduceIte]
            exact ih rest hlen2 hrest _ _ _
          · subst hmt
            simp only [relatedLoop, alternativeLoop, MimeBody.leafData, hdc, reduceIte]
            exact ih rest hlen2 hrest _ _ _

/-- Claim C5 (amended): the Related and Alternative handlers produce the same
result on bodies of text/plain and text/html LEAF parts only under the extra
conditions that every leaf has an empty Content-Transfer-Encoding and a
content type selecting no supported charset — because parseMultipartRelated
reads leaves raw while parseMultipartAlternative transfer- and
charset-decodes them (see the counterexample for the general case). -/
theorem c5_related_alternative_agree_on_plain_leaves :
    ∀ (cm : Charmaps) (wd : GoStr → Option GoStr) (ps : MimeParts),
      plainTextLeaves ps = true →
      parseMultipartRelated cm wd ps = parseMultipartAlternative cm wd ps := by
  intro cm wd ps h
  exact walk_eq_of_plainTextLeaves cm wd ps.len ps le_rfl h [] [] []

/-- Witness for the amended C5: a single undecoded text/plain leaf. -/
theorem c5_witness :
    parseMultipartRelated cm₁ wd₁ (.cons partA .nil) =
      parseMultipartAlternative cm₁ wd₁ (.cons partA .nil) := by
  exact c5_related_alternative_agree_on_plain_leaves cm₁ wd₁ (.cons partA .nil) (by decide)

/-- Once the result list is non-empty, every remaining token contributes its
decoding, or itself preceded by one space on decode failure. -/
lemma mimeWordsLoop_of_ne_nil (wd : GoStr → Option GoStr) :
    ∀ (ts : List GoStr) (acc : List GoStr), acc ≠ [] →
      mimeWordsLoop wd acc ts = acc ++ ts.map (fun w => (wd w).getD (32 :: w)) := by
  intro ts
  induction ts with
  | nil => intro acc h; simp [mimeWordsLoop]
  | cons w rest ih =>
    intro acc h
    cases hw : wd w with
    | some d =>
      simp only [mimeWordsLoop, hw, List.map]
      rw [ih (acc ++ [d]) (by simp)]
      simp [hw]
    | none =>
      simp only [mimeWordsLoop, hw, List.map]
      rw [if_neg h, ih (acc ++ [32 :: w]) (by simp)]
      simp [hw]

/-- Claim C6 (confirmed): whenever the KOI8-R fast path declines (the value
does not start with its marker), decodeMimeSentence equals the spec's
per-token rule: each token splitting on ASCII space is replaced by its RFC2047
decoding with no separating space, and a token the word decoder rejects passes
through literally, preceded by a single space unless it is the first token.
The witness evaluates the four-adjacent-encoded-words example. -/
theorem c6_general_path_token_rule :
    ∀ (wd : GoStr → Option GoStr) (cm : Charmaps) (s : GoStr),
      (gs "=?koi8-r").isPrefixOf (goToLower s) = false →
      decodeMimeSentence wd cm s = .ok (mimeSentenceSpec wd (goSplitOn (gs " ") s)) := by
  intro wd cm s h
  simp only [decodeMimeSentence, decodeKoi8, h, Bool.false_eq_true, if_false, Res.bind]
  cases hts : goSplitOn (gs " ") s with
  | nil => simp [mimeSentenceSpec, mimeWordsLoop]
  | cons t ts =>
    simp only [mimeSentenceSpec]
    cases hw : wd t with
    | some d =>
      simp only [mimeWordsLoop, hw, List.nil_append]
      rw [mimeWordsLoop_of_ne_nil wd ts [d] (by simp)]
      simp [hw]
    | none =>
      simp only [mimeWordsLoop, hw, if_true, List.nil_append]
      rw [mimeWordsLoop_of_ne_nil wd ts [t] (by simp)]
      simp [hw]

/-- Witness for C6: four adjacent UTF-8/B encoded words fuse with no inserted
space while the trailing literal word keeps exactly its one surrounding
space. -/
theorem c6_witness :
    decodeMimeSentence utf8BWordDecode cm₁ subj₁ = .ok (gs "abcdefghijkl online") := by
  rw [c6_general_path_token_rule utf8BWordDecode cm₁ subj₁ (by decide)]
  decide

/-- Claim C7 (confirmed): decodeCharset agrees pointwise with the spec's
wording of the Charset Transcoder. Both are total Lean functions of the bytes,
the content-type string and the (total) codec family, which is the claim's
totality and determinism; the transcoding branch applies a total single-byte
codec, so it cannot fail. -/
theorem c7_decodeCharset_matches_spec :
    ∀ (cm : Charmaps) (content ct : GoStr),
      decodeCharset cm content ct = decodeCharsetSpec cm content ct := by
  intro cm content ct
  cases hc : goContains ct (gs "; charset=") with
  | false => simp [decodeCharset, decodeCharsetSpec, hc]
  | true =>
    simp only [decodeCharset, decodeCharsetSpec, hc, eqFold, beq_iff_eq, if_true]
    rw [show goToLower (gs "windows-1252") = gs "windows-1252" from by decide,
        show goToLower (gs "iso-8859-1") = gs "iso-8859-1" from by decide,
        show goToLower (gs "koi8-r") = gs "koi8-r" from by decide,
        show goToLower (gs "windows-1251") = gs "windows-1251" from by decide]
    generalize goToLower (goTrim ((goSplitOn (gs "; charset=") ct).getD 1 []) [32, 34, 39, 10, 13]) = L
    by_cases h1 : L = gs "default"
    · subst h1
      rw [if_pos rfl, if_neg (by decide), if_neg (by decide), if_neg (by decide), if_neg (by decide)]
    · rw [if_neg h1]

/-- Claim C8 (confirmed): decodeContent reports an unknown-transfer-encoding
error exactly when the lower-cased Content-Transfer-Encoding value is none of
base64, 7bit, 8bit, quoted-printable and the empty string; 7bit, 8bit and the
empty value pass the bytes through unchanged into the charset stage; and the
dispatch is case-insensitive (upper-cased spellings behave identically). -/
theorem c8_unknown_encoding_dispatch :
    ∀ (cm : Charmaps) (content enc ct : GoStr),
      (decodeContent cm content enc ct = .fail (.unknownEncoding enc) ↔
        (goToLower enc ≠ gs "base64" ∧ goToLower enc ≠ gs "7bit" ∧ goToLower enc ≠ gs "8bit" ∧
         goToLower enc ≠ gs "quoted-printable" ∧ goToLower enc ≠ [])) ∧
      decodeContent cm content (gs "7bit") ct = .ok (decodeCharset cm content ct, []) ∧
      decodeContent cm content (gs "8bit") ct = .ok (decodeCharset cm content ct, []) ∧
      decodeContent cm content [] ct = .ok (decodeCharset cm content ct, content) ∧
      decodeContent cm content (gs "BASE64") ct = decodeContent cm content (gs "base64") ct ∧
      decodeContent cm content (gs "Quoted-Printable") ct =
        decodeContent cm content (gs "quoted-printable") ct := by
  intro cm content enc ct
  refine ⟨?_, ?_, ?_, ?_, ?_, ?_⟩
  · unfold decodeContent
    split_ifs with h1 h2 h3 h4
    · cases hb : base64Decode content <;> simp [hb, h1]
    · rcases h2 with h2 | h2 <;> simp [h2]
    · cases hq : qpDecode content <;> simp [hq, h3]
    · simp [h4]
    · push_neg at h2
      simp [h1, h2.1, h2.2, h3, h4]
  · unfold decodeContent
    rw [if_neg (by decide), if_pos (by decide)]
  · unfold decodeContent
    rw [if_neg (by decide), if_pos (by decide)]
  · exact decodeContent_empty_encoding cm content ct
  · simp only [decodeContent, show goToLower (gs "BASE64") = gs "base64" from by decide,
      show goToLower (gs "base64") = gs "base64" from by decide, reduceIte]
  · simp only [decodeContent,
      show goToLower (gs "Quoted-Printable") = gs "quoted-printable" from by decide,
      show goToLower (gs "quoted-printable") = gs "quoted-printable" from by decide, reduceIte]

/-- An Email built from the header block alone has no body-side fields set:
Content is none and the body accumulators are empty. -/
lemma createEmailFromHeader_blank (ap : GoStr → Option Addr) (alp : GoStr → Option (List Addr))
    (tp : GoStr → GoStr → Option GoTime) (wd : GoStr → Option GoStr) (cm : Charmaps)
    (h : HeaderMap) (e0 : Email)
    (hok : createEmailFromHeader ap alp tp wd cm h = .ok e0) :
    e0.Content = none ∧ e0.TextBody = [] ∧ e0.HTMLBody = [] ∧
    e0.Attachments = [] ∧ e0.EmbeddedFiles = [] := by
  unfold createEmailFromHeader at hok
  cases hs : decodeMimeSentence wd cm (hGet h "Subject") with
  | fail e => rw [hs] at hok; simp [Res.bind] at hok
  | crash m => rw [hs] at hok; simp [Res.bind] at hok
  | ok subject =>
    rw [hs] at hok
    simp only [Res.bind] at hok
    cases hh : decodeHeaderMime wd cm h with
    | fail e => rw [hh] at hok; simp [Res.bind] at hok
    | crash m => rw [hh] at hok; simp [Res.bind] at hok
    | ok hdr =>
      rw [hh] at hok
      simp only [Res.bind] at hok
      injection hok with h2
      subst h2
      exact ⟨rfl, rfl, rfl, rfl, rfl⟩

/-- Claim C9 (confirmed): whenever ParseEmail succeeds and the raw Content
field is populated, the resolved top-level media type matched none of the five
recognized kinds (exactly the default dispatch branch ran), and TextBody,
HTMLBody, Attachments and EmbeddedFiles are all empty. -/
theorem c9_content_exclusive :
    ∀ (cm : Charmaps) (wd : GoStr → Option GoStr) (ap : GoStr → Option Addr)
      (alp : GoStr → Option (List Addr)) (tp : GoStr → GoStr → Option GoTime)
      (fb : GoStr) (mto : GoStr → Option String) (m : Msg) (e : Email),
      ParseEmail cm wd ap alp tp fb mto m = .ok e →
      e.Content ≠ none →
      (e.TextBody = [] ∧ e.HTMLBody = [] ∧ e.Attachments = [] ∧ e.EmbeddedFiles = []) ∧
      (∀ mt, parseContentTypeM mto (hGet m.header "Content-Type") = .ok mt →
        mt ≠ "multipart/mixed" ∧ mt ≠ "multipart/alternative" ∧ mt ≠ "multipart/related" ∧
        mt ≠ "text/plain" ∧ mt ≠ "text/html") := by
  intro cm wd ap alp tp fb mto m e hok hc
  unfold ParseEmail at hok
  cases h0 : createEmailFromHeader ap alp tp wd cm m.header with
  | fail e2 => rw [h0] at hok; simp [Res.bind] at hok
  | crash m2 => rw [h0] at hok; simp [Res.bind] at hok
  | ok e0 =>
    obtain ⟨hC, hT, hH, hA, hE⟩ := createEmailFromHeader_blank ap alp tp wd cm m.header e0 h0
    rw [h0] at hok
    simp only [Res.bind] at hok
    cases hct : parseContentTypeM mto (hGet m.header "Content-Type") with
    | fail e2 => rw [hct] at hok; simp [Res.bind] at hok
    | crash m2 => rw [hct] at hok; simp [Res.bind] at hok
    | ok mt =>
      rw [hct] at hok
      simp only [Res.bind] at hok
      by_cases h1 : mt = "multipart/mixed"
      · rw [if_pos h1] at hok
        cases hr : parseMultipartMixed cm wd fb m.body.subparts with
        | ok r =>
          rw [hr] at hok
          simp only [Res.bind] at hok
          injection hok with h2
          subst h2
          exact absurd hC hc
        | fail e2 => rw [hr] at hok; simp [Res.bind] at hok
        | crash m2 => rw [hr] at hok; simp [Res.bind] at hok
      · rw [if_neg h1] at hok
        by_cases h2 : mt = "multipart/alternative"
        · rw [if_pos h2] at hok
          cases hr : parseMultipartAlternative cm wd m.body.subparts with
          | ok r =>
            rw [hr] at hok
            simp only [Res.bind] at hok
            injection hok with h3
            subst h3
            exact absurd hC hc
          | fail e2 => rw [hr] at hok; simp [Res.bind] at hok
          | crash m2 => rw [hr] at hok; simp [Res.bind] at hok
        · rw [if_neg h2] at hok
          by_cases h3 : mt = "multipart/related"
          · rw [if_pos h3] at hok
            cases hr : parseMultipartRelated cm wd m.body.subparts with
            | ok r =>
              rw [hr] at hok
              simp only [Res.bind] at hok
              injection hok with h4
              subst h4
              exact absurd hC hc
            | fail e2 => rw [hr] at hok; simp [Res.bind] at hok
            | crash m2 => rw [hr] at hok; simp [Res.bind] at hok
          · rw [if_neg h3] at hok
            by_cases h4 : mt = "text/plain"
            · rw [if_pos h4] at hok
              cases hd : decodeContent cm m.body.leafData
                  (hGet m.header "Content-Transfer-Encoding") (hGet m.header "Content-Type") with
              | ok d =>
                rw [hd] at hok
                simp only [Res.bind] at hok
                injection hok with h5
                subst h5
                exact absurd hC hc
              | fail e2 => rw [hd] at hok; simp [Res.bind] at hok
              | crash m2 => rw [hd] at hok; simp [Res.bind] at hok
            · rw [if_neg h4] at hok
              by_cases h5 : mt = "text/html"
              · rw [if_pos h5] at hok
                cases hd : decodeContent cm m.body.leafData
                    (hGet m.header "Content-Transfer-Encoding") (hGet m.header "Content-Type") with
                | ok d =>
                  rw [hd] at hok
                  simp only [Res.bind] at hok
                  injection hok with h6
                  subst h6
                  exact absurd hC hc
                | fail e2 => rw [hd] at hok; simp [Res.bind] at hok
                | crash m2 => rw [hd] at hok; simp [Res.bind] at hok
              · rw [if_neg h5] at hok
                cases hd : decodeContent cm m.body.leafData
                    (hGet m.header "Content-Transfer-Encoding") (hGet m.header "Content-Type") with
                | ok d =>
                  rw [hd] at hok
                  simp only [Res.bind] at hok
                  injection hok with h6
                  subst h6
                  refine ⟨⟨hT, hH, hA, hE⟩, ?_⟩
                  intro mt2 hmt2
                  injection hmt2 with h7
                  subst h7
                  exact ⟨h1, h2, h3, h4, h5⟩
                | fail e2 => rw [hd] at hok; simp [Res.bind] at hok
                | crash m2 => rw [hd] at hok; simp [Res.bind] at hok


/-- Witness for C9: an application/pdf message populates Content with the body
bytes and leaves every other body-side field empty. -/
theorem c9_witness :
    ParseEmail cm₁ wd₁ ap₁ alp₁ tp₁ fb₁ mto₁ msg₁ = .ok email₉ ∧
    email₉.TextBody = [] ∧ email₉.HTMLBody = [] ∧
    email₉.Attachments = [] ∧ email₉.EmbeddedFiles = [] := by
  have hok : ParseEmail cm₁ wd₁ ap₁ alp₁ tp₁ fb₁ mto₁ msg₁ = .ok email₉ := by decide
  have h := c9_content_exclusive cm₁ wd₁ ap₁ alp₁ tp₁ fb₁ mto₁ msg₁ email₉ hok (by decide)
  exact ⟨hok, h.1.1, h.1.2.1, h.1.2.2.1, h.1.2.2.2⟩

/-- The format loop ends without an error exactly when some format parses (or
it was given no formats and no prior error). -/
lemma tryFormatsLoop_snd_none (tp : GoStr → GoStr → Option GoTime) (s : GoStr) :
    ∀ (fmts : List GoStr) (cur : GoTime × Option HeaderErr),
      ((tryFormatsLoop tp s cur fmts).2 = none ↔
        (fmts = [] ∧ cur.2 = none) ∨ ∃ f ∈ fmts, (tp f s).isSome) := by
  intro fmts
  induction fmts with
  | nil => intro cur; simp [tryFormatsLoop]
  | cons f rest ih =>
    intro cur
    simp only [tryFormatsLoop]
    cases hf : tp f s with
    | some t => simp [hf]
    | none =>
      rw [ih]
      simp [hf]

/-- Claim C10 (confirmed): an absent or empty Date value makes parseTime
return the zero time with the error slot passed through untouched, so an
absent date never fails the header decode; and, starting from a clean slot, a
parse error is recorded exactly when the non-empty date string matches none of
the four fixed formats. -/
theorem c10_parseTime_empty_and_error :
    ∀ (tp : GoStr → GoStr → Option GoTime) (hp : HeaderParser) (s : GoStr),
      (s = [] → HeaderParser.parseTime hp tp s = ([], hp)) ∧
      (hp.err = none →
        ((HeaderParser.parseTime hp tp s).2.err = none ↔
          s = [] ∨ ∃ f ∈ timeFormats, (tp f s).isSome)) := by
  intro tp hp s
  constructor
  · intro hs
    simp [HeaderParser.parseTime, hs]
  · intro herr
    by_cases hs : s = []
    · simp [HeaderParser.parseTime, hs, herr]
    · rw [HeaderParser.parseTime, if_neg (by simp [herr, hs])]
      rw [show ({ hp with err := (tryFormatsLoop tp s ([], hp.err) timeFormats).2 } : HeaderParser).err
            = (tryFormatsLoop tp s ([], hp.err) timeFormats).2 from rfl]
      rw [tryFormatsLoop_snd_none tp s timeFormats ([], hp.err)]
      simp [hs, herr, timeFormats]

/-- Witness for C10: the empty date leaves the parser untouched, and a date
string no format accepts is characterized by the error equivalence. -/
theorem c10_witness :
    HeaderParser.parseTime {} tp₁ [] = ([], {}) ∧
    ((HeaderParser.parseTime ({} : HeaderParser) tp₁ (gs "not a date")).2.err = none ↔
      gs "not a date" = [] ∨ ∃ f ∈ timeFormats, (tp₁ f (gs "not a date")).isSome) := by
  exact ⟨(c10_parseTime_empty_and_error tp₁ {} []).1 rfl,
    (c10_parseTime_empty_and_error tp₁ {} (gs "not a date")).2 rfl⟩
